import Mathlib

/-!
Shallow embedding of `src/utils.rs` (youki utility module): path-space
conversions, guarded directory creation, the procfs check and the temporary
directory lifecycle, together with theorems settling the specification's
claims about them.
-/

set_option autoImplicit false

namespace Youki

/--
The textual form of a path, as a list of characters. The Rust code
manipulates paths textually (`to_string_lossy`, slicing off the first byte,
`format!` concatenation); the separator `/` occupies a single byte, so byte
slicing at index 1 coincides with dropping one character here.
-/
abbrev PathStr := List Char

/--
Filesystem paths as seen by the directory-manipulating functions, as a list
of components (the `/`-separated segments of the textual form).
-/
abbrev FsPath := List String

/--
Errors raised by the utility functions. The Rust code raises `anyhow` string
errors; each constructor below corresponds to one `bail!` / error-propagation
site and carries the data interpolated into that site's message.
-/
inductive UtilsError where
  /-- from `bail!("Relative path cannot be converted to the path in the container.")` -/
  | relativeContainerPath
  /-- from `bail!("cannot join {:?} because it is not the absolute path.", p.display())` -/
  | invalidJoin (fragment : PathStr)
  /-- from the `.with_context(|| format!("failed to get metadata for {}", ...))` site -/
  | getMetadataFailed (path : FsPath)
  /-- from `bail!("metadata for {} does not possess the expected attributes", ...)` -/
  | attrMismatch (path : FsPath)
  /-- from `fs::File::open(path)?` in `ensure_procfs`; carries the io error text -/
  | openFailed (ioMsg : String)
  /-- from `statfs::fstatfs(..)?` in `ensure_procfs`; carries the errno text -/
  | statfsFailed (ioMsg : String)
  /-- from `bail!(format!("{:?} is not on the procfs", path))` -/
  | notProcfs (path : String)
deriving DecidableEq, Repr

/--
The message text of the path-joining error, mirroring the Rust format string
`"cannot join {:?} because it is not the absolute path."` (the `{:?}`
formatting of the displayed path surrounds it with quotes).
-/
def UtilsError.text : UtilsError → PathStr
  | .invalidJoin f =>
      "cannot join \"".data ++ f ++ "\" because it is not the absolute path.".data
  | .relativeContainerPath =>
      "Relative path cannot be converted to the path in the container.".data
  | _ => []

/-! ## PathSpace: `as_in_container` and `join_absolute_path` -/

/-- `Path::is_absolute` on Unix: the path has a root, i.e. starts with `/`. -/
def isAbsolutePath (s : PathStr) : Bool := s.head? == some '/'

/-- `Path::is_relative` is the negation of `Path::is_absolute`. -/
def isRelativePath (s : PathStr) : Bool := !isAbsolutePath s

/--
`PathBufExt::as_in_container`: if the path is relative, bail; otherwise
return the textual form with its first byte (the leading `/`) removed
(`path_string[1..]` in the source).
-/
def as_in_container (s : PathStr) : Except UtilsError PathStr :=
  if isRelativePath s then .error .relativeContainerPath
  else .ok (s.drop 1)

/--
`PathBufExt::join_absolute_path`: bail when the fragment is neither absolute
nor empty; otherwise return the literal textual concatenation
(`format!("{}{}", self.display(), p.display())` in the source).
-/
def join_absolute_path (base p : PathStr) : Except UtilsError PathStr :=
  if !isAbsolutePath p && !(p == []) then .error (.invalidJoin p)
  else .ok (base ++ p)

/--
Rust `PathBuf` equality compares parsed components, not raw text: repeated
separators are collapsed and a trailing separator is ignored. Modelled as:
same root flag, and the same list of non-empty `/`-separated segments.
(`.`-segment normalisation is not modelled; no claim exercises it.)
-/
def pathEqb (a b : PathStr) : Bool :=
  (isAbsolutePath a == isAbsolutePath b)
    && ((a.splitOn '/').filter (fun c => c ≠ []) == (b.splitOn '/').filter (fun c => c ≠ []))

/-! ### Claims about PathSpace -/

/--
Claim C3, counterexample: the claim asserts the result of `as_in_container`
is always relative, but on the absolute host path `"//a"` the code strips a
single byte and returns `"/a"`, which is still absolute.
-/
theorem as_in_container_double_root :
    as_in_container "//a".data = .ok "/a".data ∧ isRelativePath "/a".data = false := by
  constructor
  · rfl
  · rfl

/--
Claim C3 (amended): for every absolute host path `p`, `as_in_container p`
returns `Ok` of `p` with exactly its single leading root marker (the first
character, a separator) removed and all remaining characters intact; the
result is relative provided it does not itself begin with a separator
(i.e. `p` did not begin with a doubled separator).
-/
theorem as_in_container_absolute (p : PathStr) (h : isAbsolutePath p = true) :
    as_in_container p = .ok (p.drop 1) ∧
    '/' :: p.drop 1 = p ∧
    (isAbsolutePath (p.drop 1) = false → isRelativePath (p.drop 1) = true) := by
  refine ⟨?_, ?_, ?_⟩
  · simp [as_in_container, isRelativePath, h]
  · cases p with
    | nil => simp [isAbsolutePath] at h
    | cons c t =>
        simp [isAbsolutePath] at h
        simp [h]
  · intro h2
    simp only [isRelativePath, h2, Bool.not_false]

/-- Claim C3, witness: the amended theorem applied at the path `"/etc/fstab"`. -/
theorem as_in_container_absolute_instance :
    as_in_container "/etc/fstab".data = .ok "etc/fstab".data ∧
    '/' :: "etc/fstab".data = "/etc/fstab".data ∧
    (isAbsolutePath "etc/fstab".data = false → isRelativePath "etc/fstab".data = true) :=
  as_in_container_absolute "/etc/fstab".data (by decide)

/--
Claim C9: `as_in_container` fails with the invalid-path error on every
relative input, performing no conversion.
-/
theorem as_in_container_relative_err (p : PathStr) (h : isRelativePath p = true) :
    as_in_container p = .error .relativeContainerPath := by
  simp [as_in_container, h]

/-- Claim C9, witness: the theorem applied at the relative path `"abc"`. -/
theorem as_in_container_relative_err_instance :
    as_in_container "abc".data = .error .relativeContainerPath :=
  as_in_container_relative_err "abc".data (by decide)

/--
Claim C10: applied to the bare root path `"/"`, `as_in_container` returns
`Ok` of the empty textual path, not an error.
-/
theorem as_in_container_root : as_in_container "/".data = .ok [] := by
  rfl

/--
Claim C4: for every base `b` and fragment `f` that is empty or absolute,
`join_absolute_path b f` returns `Ok` of the literal textual concatenation
of `b` and `f` (no semantic merging); in particular joining `"sample/a/"`
with `"/b"` yields a path equal (as a Rust path, component-wise) to
`"sample/a/b"`.
-/
theorem join_absolute_path_ok (b f : PathStr) (h : f = [] ∨ isAbsolutePath f = true) :
    join_absolute_path b f = .ok (b ++ f) ∧
    pathEqb ("sample/a/".data ++ "/b".data) "sample/a/b".data = true := by
  refine ⟨?_, by decide⟩
  rcases h with h | h
  · subst h; rfl
  · simp [join_absolute_path, h]

/-- Claim C4, witness: the theorem applied at base `"sample/a/"`, fragment `"/b"`. -/
theorem join_absolute_path_ok_instance :
    join_absolute_path "sample/a/".data "/b".data = .ok ("sample/a/".data ++ "/b".data) ∧
    pathEqb ("sample/a/".data ++ "/b".data) "sample/a/b".data = true :=
  join_absolute_path_ok "sample/a/".data "/b".data (Or.inr (by decide))

/--
Claim C5: for every base `b` and non-empty relative fragment `f`,
`join_absolute_path b f` fails with the invalid-join error, whose message
text contains the fragment's textual form.
-/
theorem join_absolute_path_rejects_relative (b f : PathStr) (hne : f ≠ [])
    (hrel : isAbsolutePath f = false) :
    join_absolute_path b f = .error (.invalidJoin f) ∧
    ∃ pre suf, (UtilsError.invalidJoin f).text = pre ++ f ++ suf := by
  constructor
  · have hbe : (f == []) = false := by
      simpa using hne
    simp [join_absolute_path, hrel, hbe]
  · exact ⟨"cannot join \"".data, "\" because it is not the absolute path.".data, by
      simp [UtilsError.text]⟩

/-- Claim C5, witness: the theorem applied at base `"sample/a/"`, fragment `"b/c"`. -/
theorem join_absolute_path_rejects_relative_instance :
    join_absolute_path "sample/a/".data "b/c".data = .error (.invalidJoin "b/c".data) ∧
    ∃ pre suf, (UtilsError.invalidJoin "b/c".data).text = pre ++ "b/c".data ++ suf :=
  join_absolute_path_rejects_relative "sample/a/".data "b/c".data (by decide) (by decide)

/-! ## Filesystem model and `create_dir_all_with_mode`

The filesystem is an association list from component paths to metadata, plus
the effective uid of the calling process. The OS-level `mkdir` (reached
through `DirBuilder::new().recursive(true).mode(..).create(..)`) is modelled
per the spec and POSIX: each missing directory on the path is created with
the requested mode bits, owned by the calling process's effective uid (the
code performs no `chown`; umask masking is not modelled, following the
spec's "applying the requested mode bits to the newly created leaf").
-/

/-- The slice of `std::fs::Metadata` that `create_dir_all_with_mode` reads. -/
structure Metadata where
  is_dir : Bool
  st_uid : Nat
  st_mode : Nat
deriving DecidableEq, Repr

/-- The on-disk state: an association list from paths to metadata. -/
abbrev Fs := List (FsPath × Metadata)

/-- Look up the metadata stored for a path (`Path::metadata`, symlink-free model). -/
def Fs.find : Fs → FsPath → Option Metadata
  | [], _ => none
  | (k, m) :: rest, p => if k = p then some m else Fs.find rest p

/-- The filesystem together with the calling process's effective uid. -/
structure Sys where
  fs : Fs
  procUid : Nat
deriving DecidableEq, Repr

/-- The directory file-type bit of `st_mode` (`S_IFDIR`). -/
def S_IFDIR : Nat := 0o40000

/-- Metadata of a directory freshly created by `mkdir(mode)` for uid `uid`. -/
def mkMeta (uid modeBits : Nat) : Metadata :=
  { is_dir := true, st_uid := uid, st_mode := S_IFDIR ||| modeBits }

/-- One `mkdir` step: create the directory only if nothing exists at the path. -/
def insertIfMissing (fs : Fs) (p : FsPath) (m : Metadata) : Fs :=
  match Fs.find fs p with
  | some _ => fs
  | none => (p, m) :: fs

/--
The chain of non-empty prefixes of a path, shortest first:
`ancestorChain [a, b] = [[a], [a, b]]`. `create_dir_all` performs one
`mkdir` per element, parents first.
-/
def ancestorChain : FsPath → List FsPath
  | [] => []
  | c :: cs => [c] :: (ancestorChain cs).map (fun q => c :: q)

/--
`DirBuilder::new().recursive(true).mode(modeBits).create(p)`: create every
missing directory along `p`, parents first, each with the builder's mode.
-/
def mkdirAll (uid modeBits : Nat) (fs : Fs) (p : FsPath) : Fs :=
  (ancestorChain p).foldl (fun acc q => insertIfMissing acc q (mkMeta uid modeBits)) fs

/--
`create_dir_all_with_mode(path, owner, mode)`: if the path does not exist,
create it (and all parents) with the requested mode; then re-read the
metadata and verify it is a directory, owned by `owner`, with all requested
mode bits present — otherwise bail with the attribute-mismatch error.
Returns the result paired with the post-state.
-/
def create_dir_all_with_mode (sys : Sys) (path : FsPath) (owner modeBits : Nat) :
    Except UtilsError Unit × Sys :=
  let fs1 := if (Fs.find sys.fs path).isSome then sys.fs
             else mkdirAll sys.procUid modeBits sys.fs path
  match Fs.find fs1 path with
  | none => (.error (.getMetadataFailed path), { sys with fs := fs1 })
  | some md =>
      if md.is_dir && (md.st_uid == owner) && (md.st_mode &&& modeBits == modeBits)
      then (.ok (), { sys with fs := fs1 })
      else (.error (.attrMismatch path), { sys with fs := fs1 })

/-! ### Helper lemmas about the filesystem model -/

theorem find_insertIfMissing_ne (fs : Fs) (q p : FsPath) (m : Metadata) (h : q ≠ p) :
    Fs.find (insertIfMissing fs q m) p = Fs.find fs p := by
  unfold insertIfMissing
  cases Fs.find fs q <;> simp [Fs.find, h]

theorem find_insertIfMissing_some (fs : Fs) (q p : FsPath) (m md : Metadata)
    (h : Fs.find fs p = some md) :
    Fs.find (insertIfMissing fs q m) p = some md := by
  by_cases hqp : q = p
  · subst hqp
    unfold insertIfMissing
    rw [h]
    exact h
  · rw [find_insertIfMissing_ne fs q p m hqp]
    exact h

theorem find_insertIfMissing_fresh (fs : Fs) (p : FsPath) (m : Metadata)
    (h : Fs.find fs p = none) :
    Fs.find (insertIfMissing fs p m) p = some m := by
  unfold insertIfMissing
  rw [h]
  simp [Fs.find]

theorem find_foldl_ins_of_ne (uid modeBits : Nat) (p : FsPath) :
    ∀ (L : List FsPath) (fs : Fs), (∀ q ∈ L, q ≠ p) →
      Fs.find (L.foldl (fun acc q => insertIfMissing acc q (mkMeta uid modeBits)) fs) p
        = Fs.find fs p := by
  intro L
  induction L with
  | nil => intro fs _; rfl
  | cons q L ih =>
      intro fs h
      simp only [List.foldl_cons]
      rw [ih (insertIfMissing fs q (mkMeta uid modeBits)) (fun r hr => h r (by simp [hr]))]
      exact find_insertIfMissing_ne fs q p _ (h q (by simp))

theorem find_foldl_ins_of_some (uid modeBits : Nat) (p : FsPath) (md : Metadata) :
    ∀ (L : List FsPath) (fs : Fs), Fs.find fs p = some md →
      Fs.find (L.foldl (fun acc q => insertIfMissing acc q (mkMeta uid modeBits)) fs) p
        = some md := by
  intro L
  induction L with
  | nil => intro fs h; exact h
  | cons q L ih =>
      intro fs h
      simp only [List.foldl_cons]
      exact ih _ (find_insertIfMissing_some fs q p _ md h)

theorem ancestorChain_length_le (p : FsPath) :
    ∀ q ∈ ancestorChain p, q.length ≤ p.length := by
  induction p with
  | nil => intro q hq; simp [ancestorChain] at hq
  | cons c cs ih =>
      intro q hq
      simp only [ancestorChain, List.mem_cons, List.mem_map] at hq
      rcases hq with rfl | ⟨r, hr, rfl⟩
      · simp
      · simpa using Nat.succ_le_succ (ih r hr)

theorem ancestorChain_eq_concat (p : FsPath) (h : p ≠ []) :
    ancestorChain p = ancestorChain p.dropLast ++ [p] := by
  induction p with
  | nil => exact absurd rfl h
  | cons c cs ih =>
      cases cs with
      | nil => rfl
      | cons c' cs' =>
          have hne : (c' :: cs' : FsPath) ≠ [] := by simp
          have h1 : ancestorChain (c :: c' :: cs') =
              [c] :: (ancestorChain (c' :: cs')).map (fun q => c :: q) := rfl
          have h2 : ancestorChain ((c :: c' :: cs' : FsPath).dropLast) =
              [c] :: (ancestorChain ((c' :: cs' : FsPath).dropLast)).map (fun q => c :: q) := rfl
          rw [h1, ih hne, h2]
          simp [List.map_append]

theorem find_mkdirAll_self (uid modeBits : Nat) (fs : Fs) (p : FsPath) (hne : p ≠ [])
    (hfresh : Fs.find fs p = none) :
    Fs.find (mkdirAll uid modeBits fs p) p = some (mkMeta uid modeBits) := by
  unfold mkdirAll
  rw [ancestorChain_eq_concat p hne, List.foldl_append]
  have hlt : ∀ q ∈ ancestorChain p.dropLast, q ≠ p := by
    intro q hq hqp
    have h1 : q.length ≤ p.dropLast.length := ancestorChain_length_le _ q hq
    have h2 : p.dropLast.length < p.length := by
      rw [List.length_dropLast]
      exact Nat.sub_lt (List.length_pos.mpr hne) Nat.one_pos
    exact absurd (hqp ▸ rfl : q.length = p.length) (Nat.ne_of_lt (lt_of_le_of_lt h1 h2))
  have hinner :
      Fs.find ((ancestorChain p.dropLast).foldl
        (fun acc q => insertIfMissing acc q (mkMeta uid modeBits)) fs) p = none := by
    rw [find_foldl_ins_of_ne uid modeBits p _ fs hlt]
    exact hfresh
  simp only [List.foldl_cons, List.foldl_nil]
  exact find_insertIfMissing_fresh _ p _ hinner

theorem find_mkdirAll_of_some (uid modeBits : Nat) (fs : Fs) (p q : FsPath) (md : Metadata)
    (h : Fs.find fs q = some md) :
    Fs.find (mkdirAll uid modeBits fs p) q = some md :=
  find_foldl_ins_of_some uid modeBits q md (ancestorChain p) fs h

theorem lor_land_self (a b : Nat) : (a ||| b) &&& b = b := by
  apply Nat.eq_of_testBit_eq
  intro i
  simp only [Nat.testBit_and, Nat.testBit_or]
  cases b.testBit i <;> simp

/-! ### Claims about `create_dir_all_with_mode` -/

/--
Claim C1, counterexample: the claim asserts success on every fresh target
path, but the code never changes ownership, so when the requested owner
(1000) differs from the calling process's uid (0) the post-creation check
fails with the attribute-mismatch error; and on the empty path nothing is
created, so reading metadata fails.
-/
theorem create_dir_all_with_mode_fresh_cex :
    (create_dir_all_with_mode ⟨[], 0⟩ ["tmp"] 1000 448).1 = .error (.attrMismatch ["tmp"]) ∧
    (create_dir_all_with_mode ⟨[], 0⟩ [] 0 448).1 = .error (.getMetadataFailed []) := by
  constructor
  · rfl
  · rfl

/--
Claim C1 (amended): for every non-empty fresh target path, provided the
requested owner equals the calling process's effective uid,
`create_dir_all_with_mode` returns `Ok` and leaves a directory whose owner
equals the requested owner and whose mode contains all requested bits; and
running it again with the same arguments on the resulting state succeeds
without modifying the filesystem.
-/
theorem create_dir_all_with_mode_fresh_ok (sys : Sys) (p : FsPath) (owner modeBits : Nat)
    (hne : p ≠ []) (hfresh : Fs.find sys.fs p = none) (howner : owner = sys.procUid) :
    (create_dir_all_with_mode sys p owner modeBits).1 = .ok () ∧
    Fs.find (create_dir_all_with_mode sys p owner modeBits).2.fs p
        = some (mkMeta sys.procUid modeBits) ∧
    (mkMeta sys.procUid modeBits).is_dir = true ∧
    (mkMeta sys.procUid modeBits).st_uid = owner ∧
    (mkMeta sys.procUid modeBits).st_mode &&& modeBits = modeBits ∧
    create_dir_all_with_mode (create_dir_all_with_mode sys p owner modeBits).2 p owner modeBits
        = (.ok (), (create_dir_all_with_mode sys p owner modeBits).2) := by
  subst howner
  have hfind := find_mkdirAll_self sys.procUid modeBits sys.fs p hne hfresh
  have hcond : ((mkMeta sys.procUid modeBits).is_dir
      && ((mkMeta sys.procUid modeBits).st_uid == sys.procUid)
      && ((mkMeta sys.procUid modeBits).st_mode &&& modeBits == modeBits)) = true := by
    simp [mkMeta, lor_land_self]
  have hmain : create_dir_all_with_mode sys p sys.procUid modeBits
      = (.ok (), { sys with fs := mkdirAll sys.procUid modeBits sys.fs p }) := by
    simp only [create_dir_all_with_mode, hfresh, Option.isSome_none, Bool.false_eq_true,
      if_false, hfind, hcond, if_true]
  have hagain : create_dir_all_with_mode
      { sys with fs := mkdirAll sys.procUid modeBits sys.fs p } p sys.procUid modeBits
      = (.ok (), { sys with fs := mkdirAll sys.procUid modeBits sys.fs p }) := by
    simp only [create_dir_all_with_mode, hfind, Option.isSome_some, if_true, hcond]
  rw [hmain]
  refine ⟨rfl, hfind, rfl, rfl, lor_land_self _ _, hagain⟩

/--
Claim C1, witness: the amended theorem applied at uid 42, fresh path
`tmp/youki`, owner 42, mode `0o700`.
-/
theorem create_dir_all_with_mode_fresh_ok_instance :
    (create_dir_all_with_mode ⟨[], 42⟩ ["tmp", "youki"] 42 448).1 = .ok () ∧
    Fs.find (create_dir_all_with_mode ⟨[], 42⟩ ["tmp", "youki"] 42 448).2.fs ["tmp", "youki"]
        = some (mkMeta 42 448) ∧
    (mkMeta 42 448).is_dir = true ∧
    (mkMeta 42 448).st_uid = 42 ∧
    (mkMeta 42 448).st_mode &&& 448 = 448 ∧
    create_dir_all_with_mode (create_dir_all_with_mode ⟨[], 42⟩ ["tmp", "youki"] 42 448).2
        ["tmp", "youki"] 42 448
      = (.ok (), (create_dir_all_with_mode ⟨[], 42⟩ ["tmp", "youki"] 42 448).2) :=
  create_dir_all_with_mode_fresh_ok ⟨[], 42⟩ ["tmp", "youki"] 42 448 (by simp) rfl rfl

/--
Claim C6: when the target path already holds metadata, the call succeeds
exactly when that metadata is a directory owned by the requested owner with
all requested mode bits present; in particular an existing directory with a
different owner makes it fail with the attribute-mismatch error naming the
path (leaving the filesystem unchanged), regardless of its mode bits.
-/
theorem create_dir_all_with_mode_existing_check (sys : Sys) (p : FsPath)
    (owner modeBits : Nat) (md : Metadata) (hex : Fs.find sys.fs p = some md) :
    ((create_dir_all_with_mode sys p owner modeBits).1 = .ok () ↔
      (md.is_dir = true ∧ md.st_uid = owner ∧ md.st_mode &&& modeBits = modeBits)) ∧
    (md.st_uid ≠ owner →
      create_dir_all_with_mode sys p owner modeBits = (.error (.attrMismatch p), sys)) := by
  have hexp : ∀ r : Except UtilsError Unit × Sys,
      (if md.is_dir && (md.st_uid == owner) && (md.st_mode &&& modeBits == modeBits)
       then ((.ok (), { sys with fs := sys.fs }) : Except UtilsError Unit × Sys)
       else (.error (.attrMismatch p), { sys with fs := sys.fs })) = r →
      create_dir_all_with_mode sys p owner modeBits = r := by
    intro r hr
    rw [← hr]
    simp only [create_dir_all_with_mode, hex, Option.isSome_some, if_true]
  constructor
  · by_cases hc : (md.is_dir && (md.st_uid == owner) && (md.st_mode &&& modeBits == modeBits))
        = true
    · have heq : create_dir_all_with_mode sys p owner modeBits = (.ok (), sys) :=
        hexp _ (by rw [hc]; rfl)
      rw [heq]
      simp only [Bool.and_eq_true, beq_iff_eq] at hc
      simpa using ⟨hc.1.1, hc.1.2, hc.2⟩
    · have hfalse : (md.is_dir && (md.st_uid == owner)
          && (md.st_mode &&& modeBits == modeBits)) = false := by
        rwa [Bool.not_eq_true] at hc
      have heq : create_dir_all_with_mode sys p owner modeBits
          = (.error (.attrMismatch p), sys) := hexp _ (by rw [hfalse]; rfl)
      rw [heq]
      simp only [Bool.and_eq_true, beq_iff_eq] at hc
      refine ⟨fun habs => by simp at habs, fun h => absurd ⟨⟨h.1, h.2.1⟩, h.2.2⟩ hc⟩
  · intro huid
    have huidb : (md.st_uid == owner) = false := by
      simpa using huid
    have hfalse : (md.is_dir && (md.st_uid == owner)
        && (md.st_mode &&& modeBits == modeBits)) = false := by
      simp [huidb]
    exact hexp _ (by rw [hfalse]; rfl)

/--
Claim C6, witness: an existing directory owned by uid 5 with mode `0o755`,
requested owner 7 and mode `0o755` (all requested bits present): the call
fails with the attribute-mismatch error naming the path.
-/
theorem create_dir_all_with_mode_existing_check_instance :
    create_dir_all_with_mode ⟨[(["tmp"], ⟨true, 5, 0o40755⟩)], 0⟩ ["tmp"] 7 0o755
      = (.error (.attrMismatch ["tmp"]), ⟨[(["tmp"], ⟨true, 5, 0o40755⟩)], 0⟩) :=
  (create_dir_all_with_mode_existing_check ⟨[(["tmp"], ⟨true, 5, 0o40755⟩)], 0⟩ ["tmp"]
      7 0o755 ⟨true, 5, 0o40755⟩ rfl).2 (by decide)

/-! ## ProcfsGuard: `ensure_procfs`

`ensure_procfs` opens the path, then queries the filesystem type of the
already-open descriptor with `fstatfs`. The OS is modelled by two oracles:
`openFile`, resolving a path to an open descriptor (or an io error), and
`fstatfs`, reporting the filesystem-type magic of an open descriptor (or an
errno). The type check consults only the opened descriptor, never the path.
-/

/-- The OS interface used by `ensure_procfs`. -/
structure ProcfsSys where
  openFile : String → Except String Nat
  fstatfs : Nat → Except String Nat

/-- The magic value identifying procfs (`PROC_SUPER_MAGIC`). -/
def PROC_SUPER_MAGIC : Nat := 0x9fa0

/--
`ensure_procfs(path)`: open the path (propagating the failure), `fstatfs`
the open descriptor (propagating the failure), and bail with the
not-on-procfs error if the reported magic differs from `PROC_SUPER_MAGIC`.
-/
def ensure_procfs (sys : ProcfsSys) (path : String) : Except UtilsError Unit :=
  match sys.openFile path with
  | .error e => .error (.openFailed e)
  | .ok fd =>
      match sys.fstatfs fd with
      | .error e => .error (.statfsFailed e)
      | .ok magic =>
          if magic ≠ PROC_SUPER_MAGIC then .error (.notProcfs path) else .ok ()

/--
Claim C2: `ensure_procfs` fails with the open error when the open fails;
when the open yields a descriptor whose reported filesystem magic is
`PROC_SUPER_MAGIC` it succeeds, and for any other reported magic it fails
with the not-on-procfs error; moreover the outcome depends only on what
`fstatfs` reports for the descriptor actually opened — any system agreeing
on that descriptor's report gives the same outcome, i.e. the check never
re-resolves the path.
-/
theorem ensure_procfs_correct (sys : ProcfsSys) (path : String) :
    (∀ e, sys.openFile path = .error e → ensure_procfs sys path = .error (.openFailed e)) ∧
    (∀ fd, sys.openFile path = .ok fd →
      (∀ magic, sys.fstatfs fd = .ok magic →
        (magic = PROC_SUPER_MAGIC → ensure_procfs sys path = .ok ()) ∧
        (magic ≠ PROC_SUPER_MAGIC → ensure_procfs sys path = .error (.notProcfs path))) ∧
      (∀ sys' : ProcfsSys, sys'.openFile path = .ok fd → sys'.fstatfs fd = sys.fstatfs fd →
        ensure_procfs sys' path = ensure_procfs sys path)) := by
  refine ⟨fun e he => ?_, fun fd hfd => ⟨fun magic hm => ⟨fun hy => ?_, fun hn => ?_⟩,
    fun sys' hopen' hstat' => ?_⟩⟩
  · simp [ensure_procfs, he]
  · simp [ensure_procfs, ‹sys.openFile path = .ok fd›, hm, hy]
  · simp [ensure_procfs, ‹sys.openFile path = .ok fd›, hm, hn]
  · simp only [ensure_procfs, hfd, hopen', hstat']

/--
Claim C2, witness: the theorem applied to a system whose descriptor 3
reports the procfs magic (success), one reporting a tmpfs-like magic 0x1021994
(not-procfs failure), and one whose open fails (open failure).
-/
theorem ensure_procfs_correct_instance :
    ensure_procfs ⟨fun _ => .ok 3, fun _ => .ok 0x9fa0⟩ "/proc/self" = .ok () ∧
    ensure_procfs ⟨fun _ => .ok 3, fun _ => .ok 0x1021994⟩ "/tmp/x"
      = .error (.notProcfs "/tmp/x") ∧
    ensure_procfs ⟨fun _ => .error "ENOENT", fun _ => .ok 0x9fa0⟩ "/nope"
      = .error (.openFailed "ENOENT") :=
  ⟨(((ensure_procfs_correct ⟨fun _ => .ok 3, fun _ => .ok 0x9fa0⟩ "/proc/self").2
      3 rfl).1 0x9fa0 rfl).1 rfl,
   (((ensure_procfs_correct ⟨fun _ => .ok 3, fun _ => .ok 0x1021994⟩ "/tmp/x").2
      3 rfl).1 0x1021994 rfl).2 (by decide),
   (ensure_procfs_correct ⟨fun _ => .error "ENOENT", fun _ => .ok 0x9fa0⟩ "/nope").1
      "ENOENT" rfl⟩

/-! ## ScratchDirectory: `TempDir`

`TempDir` owns an `Option<PathBuf>`: `Some` while active, `None` once
removed. Construction runs `create_dir_all` on the path; `remove` deletes
the tree recursively (errors swallowed) and clears the option; `Drop` calls
`remove`; `path()` is `self.path.as_ref().expect(..)` — a panic when the
option is empty, modelled by `PanicOr.panicked`.
-/

/-- The result of an operation that either panics or yields a value. -/
inductive PanicOr (α : Type) where
  | panicked
  | ok (val : α)
deriving DecidableEq, Repr

/-- The `TempDir` struct: `path: Option<PathBuf>`. -/
structure TempDir where
  pathOpt : Option FsPath
deriving DecidableEq, Repr

/-- `TempDir::new`: `create_dir_all(&p)` then store `Some(p)`. -/
def TempDir.new (sys : Sys) (p : FsPath) : Sys × TempDir :=
  ({ sys with fs := mkdirAll sys.procUid 0o777 sys.fs p }, ⟨some p⟩)

/-- `fs::remove_dir_all`: delete the path and everything below it. -/
def removeDirAll (fs : Fs) (p : FsPath) : Fs :=
  fs.filter (fun e => !(p.isPrefixOf e.1))

/--
`TempDir::remove`: if still active, best-effort delete the tree (the result
of the deletion is discarded) and clear the stored path; a no-op otherwise.
-/
def TempDir.remove (sys : Sys) (d : TempDir) : Sys × TempDir :=
  match d.pathOpt with
  | some p => ({ sys with fs := removeDirAll sys.fs p }, ⟨none⟩)
  | none => (sys, d)

/-- `Drop for TempDir`: the destructor, run on every exit path, calls `remove`. -/
def TempDir.drop (sys : Sys) (d : TempDir) : Sys × TempDir :=
  TempDir.remove sys d

/-- `TempDir::path`: `self.path.as_ref().expect("temp dir has already been removed")`. -/
def TempDir.path (d : TempDir) : PanicOr FsPath :=
  match d.pathOpt with
  | some p => .ok p
  | none => .panicked

theorem find_removeDirAll (fs : Fs) (p q : FsPath) (h : p.isPrefixOf q = true) :
    Fs.find (removeDirAll fs p) q = none := by
  induction fs with
  | nil => rfl
  | cons e rest ih =>
      by_cases hk : p.isPrefixOf e.1
      · simpa [removeDirAll, List.filter, hk] using ih
      · have hne : e.1 ≠ q := by
          intro hq
          rw [hq] at hk
          exact hk h
        obtain ⟨k, m⟩ := e
        simp only [removeDirAll, List.filter] at ih ⊢
        simp only [hk] at hne ⊢
        simpa [Fs.find, hne] using ih

/-! ### Claims about `TempDir` -/

/--
Claim C7, counterexample: the claim quantifies over every path, but for the
empty path `TempDir::new` succeeds (Rust's `create_dir_all("")` is a no-op
returning `Ok`) while no directory exists at that path immediately after
construction.
-/
theorem tempDir_empty_path :
    (TempDir.new ⟨[], 0⟩ []).2.pathOpt = some [] ∧
    Fs.find (TempDir.new ⟨[], 0⟩ []).1.fs [] = none := by
  constructor
  · rfl
  · rfl

/--
Claim C7 (amended): for every non-empty path, a `TempDir` created for it
yields an on-disk directory entry at that path immediately after
construction (the freshly created `0o777` directory when the path was
fresh); after `remove()` the whole tree below the path no longer exists; a
second `remove()` is a no-op returning the state unchanged (no error); and
the destructor `drop` behaves exactly as `remove`.
-/
theorem tempDir_lifecycle (sys : Sys) (p : FsPath) (hne : p ≠ []) :
    ((Fs.find (TempDir.new sys p).1.fs p).isSome = true) ∧
    (Fs.find sys.fs p = none →
      Fs.find (TempDir.new sys p).1.fs p = some (mkMeta sys.procUid 0o777)) ∧
    (∀ q, p.isPrefixOf q = true →
      Fs.find (TempDir.remove (TempDir.new sys p).1 (TempDir.new sys p).2).1.fs q = none) ∧
    (TempDir.remove (TempDir.remove (TempDir.new sys p).1 (TempDir.new sys p).2).1
        (TempDir.remove (TempDir.new sys p).1 (TempDir.new sys p).2).2
      = TempDir.remove (TempDir.new sys p).1 (TempDir.new sys p).2) ∧
    (TempDir.drop (TempDir.new sys p).1 (TempDir.new sys p).2
      = TempDir.remove (TempDir.new sys p).1 (TempDir.new sys p).2) := by
  refine ⟨?_, ?_, ?_, rfl, rfl⟩
  · cases h : Fs.find sys.fs p with
    | none =>
        have := find_mkdirAll_self sys.procUid 0o777 sys.fs p hne h
        simp [TempDir.new, this]
    | some md =>
        have := find_mkdirAll_of_some sys.procUid 0o777 sys.fs p p md h
        simp [TempDir.new, this]
  · intro h
    exact find_mkdirAll_self sys.procUid 0o777 sys.fs p hne h
  · intro q hq
    exact find_removeDirAll _ p q hq

/--
Claim C7, witness: the amended theorem applied at the fresh path `["a"]`,
instantiating existence after construction and disappearance after removal.
-/
theorem tempDir_lifecycle_instance :
    (Fs.find (TempDir.new ⟨[], 7⟩ ["a"]).1.fs ["a"]).isSome = true ∧
    Fs.find (TempDir.remove (TempDir.new ⟨[], 7⟩ ["a"]).1 (TempDir.new ⟨[], 7⟩ ["a"]).2).1.fs
      ["a"] = none :=
  ⟨(tempDir_lifecycle ⟨[], 7⟩ ["a"] (by simp)).1,
   (tempDir_lifecycle ⟨[], 7⟩ ["a"] (by simp)).2.2.1 ["a"] (by decide)⟩

/--
Claim C8: once `remove()` has completed on a `TempDir`, calling `path()`
panics (the `expect` on the emptied option) rather than returning a stale
path — for every prior state and every instance.
-/
theorem tempDir_path_after_remove_panics (sys : Sys) (d : TempDir) :
    ((TempDir.remove sys d).2).path = .panicked := by
  obtain ⟨o⟩ := d
  cases o <;> rfl

end Youki
